import Mathlib

set_option maxRecDepth 40000

/-!
Verification of the OpsPad terminal session manager
(`src-tauri/src/terminal/portable_pty_backend.rs`, `terminal/mod.rs`,
`terminal/session_manager.rs`, `arch/ssh.rs`).

The Rust code keeps a process-wide `HashMap<String, Arc<Session>>` behind a
mutex; every registry access in the source takes that lock for the whole
remove-and-check (or get, or insert) step, so each such step is atomic.  We
embed the registry as an association list `List (String × Session)` and the
concurrent finalization race as an interleaving semantics: a trace is a list
of atomic actions (output-loop finalize, exit-wait-loop finalize, close),
each of which performs exactly the locked registry step of the source.

Mutable session state (`SessionMeta` behind `Mutex<SessionMeta>`) is embedded
by updating the registry entry in place.  The `writer`, `master` and `killer`
handles are OS resources; their fallible operations (`openpty`,
`spawn_command`, `try_clone_reader`, `take_writer`, `write_all`, `resize`)
are passed to the embedded operations as `Except String Unit` outcomes.
Rust strings are embedded as `List Char`; `String::len` is the UTF-8 byte
count, so lengths are measured with `Char.utf8Size`.
-/

namespace OpsPad

/-- Mirror of `SessionMeta` (portable_pty_backend.rs lines 16-23).
`last_commanddock_at : Option Nat` stands for `Option<SystemTime>`;
time is an abstract tick passed into `write`. -/
structure SessionMeta where
  environment_tag : String
  cols : Nat
  rows : Nat
  last_commanddock_command : Option (List Char)
  last_commanddock_at : Option Nat
  deriving DecidableEq

/-- Mirror of `Session` (lines 25-30).  The `writer`/`master`/`killer`
mutex-held OS handles carry no state observable by the claims; only the
`meta` field is embedded. -/
structure Session where
  meta : SessionMeta
  deriving DecidableEq

/-- The registry: `sessions: Arc<Mutex<HashMap<String, Arc<Session>>>>`,
embedded as an association list with unique keys maintained by `mapInsert`. -/
abbrev Registry := List (String × Session)

/-- `map.remove(&id)` under the sessions lock: returns the removed entry
(if any) and the map without that key. -/
def mapRemove (id : String) (m : Registry) : Option Session × Registry :=
  (m.lookup id, m.filter (fun p => p.1 != id))

/-- `map.insert(id, session)` under the sessions lock (replacing semantics
of `HashMap::insert`). -/
def mapInsert (id : String) (s : Session) (m : Registry) : Registry :=
  (id, s) :: m.filter (fun p => p.1 != id)

/-- In-place mutation of one session's `meta` through the shared `Arc`
(the registry entry for `id`, when present, now holds the updated meta). -/
def mapUpdateMeta (id : String) (f : SessionMeta → SessionMeta) : Registry → Registry
  | [] => []
  | (k, v) :: t =>
    match k == id with
    | true => (k, Session.mk (f v.meta)) :: mapUpdateMeta id f t
    | false => (k, v) :: mapUpdateMeta id f t

theorem lookup_filter_self (m : Registry) (id : String) :
    (m.filter (fun p => p.1 != id)).lookup id = none := by
  induction m with
  | nil => rfl
  | cons p t ih =>
    obtain ⟨k, v⟩ := p
    by_cases h : k = id
    · have hk : (k != id) = false := by simp [h]
      simp [List.filter_cons, hk, ih]
    · have hk : (k != id) = true := by simp [h]
      have hb : (id == k) = false := beq_eq_false_iff_ne.mpr (fun hc => h hc.symm)
      simp [List.filter_cons, hk, List.lookup, hb, ih]

theorem lookup_filter_ne (m : Registry) (id i : String) (h : id ≠ i) :
    (m.filter (fun p => p.1 != i)).lookup id = m.lookup id := by
  induction m with
  | nil => rfl
  | cons p t ih =>
    obtain ⟨k, v⟩ := p
    by_cases hp : k = i
    · have hk : (k != i) = false := by simp [hp]
      have hb : (id == k) = false := beq_eq_false_iff_ne.mpr (by rw [hp]; exact h)
      simp [List.filter_cons, hk, List.lookup, hb, ih]
    · have hk : (k != i) = true := by simp [hp]
      by_cases hq : id = k
      · simp [List.filter_cons, hk, List.lookup, hq]
      · have hb : (id == k) = false := beq_eq_false_iff_ne.mpr hq
        simp [List.filter_cons, hk, List.lookup, hb, ih]

theorem filter_eq_self_of_lookup_none (m : Registry) (id : String)
    (h : m.lookup id = none) : m.filter (fun p => p.1 != id) = m := by
  induction m with
  | nil => rfl
  | cons p t ih =>
    obtain ⟨k, v⟩ := p
    by_cases hp : id = k
    · exfalso
      simp [List.lookup, hp] at h
    · have hb : (id == k) = false := beq_eq_false_iff_ne.mpr hp
      simp only [List.lookup, hb] at h
      have hk : (k != id) = true := by
        simp only [bne_iff_ne, ne_eq]
        exact fun hc => hp hc.symm
      simp [List.filter_cons, hk, ih h]

theorem lookup_mapUpdateMeta_self (m : Registry) (id : String) (s : Session)
    (f : SessionMeta → SessionMeta) (h : m.lookup id = some s) :
    (mapUpdateMeta id f m).lookup id = some (Session.mk (f s.meta)) := by
  induction m with
  | nil => simp [List.lookup] at h
  | cons p t ih =>
    obtain ⟨k, v⟩ := p
    by_cases hp : id = k
    · subst hp
      simp only [List.lookup, beq_self_eq_true, Option.some.injEq] at h
      subst h
      simp [mapUpdateMeta, List.lookup]
    · have hb : (id == k) = false := beq_eq_false_iff_ne.mpr hp
      simp only [List.lookup, hb] at h
      have hbk : (k == id) = false := beq_eq_false_iff_ne.mpr (fun hc => hp hc.symm)
      simp only [mapUpdateMeta, hbk, List.lookup, hb]
      exact ih h

/-- C8: removal of a session id from the registry succeeds at most once —
the first `remove` returns exactly the stored entry (`lookup`), and a second
`remove` of the same id on the resulting map returns nothing.  This is the
remove-and-check primitive used by both background loops' finalize step
(portable_pty_backend.rs lines 125-128, 145-148) and by `close`
(lines 222-225). -/
theorem remove_idempotent (m : Registry) (id : String) :
    (mapRemove id m).1 = m.lookup id ∧
    (mapRemove id ((mapRemove id m).2)).1 = none := by
  refine ⟨rfl, ?_⟩
  simpa [mapRemove] using lookup_filter_self (m.filter (fun p => p.1 != id)) id

/-- Which of the two background loops of `spawn` performs a finalize step:
the PTY output loop (lines 105-137) or the child exit-wait loop
(lines 143-157).  Both run the identical remove-and-check block. -/
inductive Finalizer
  | outputLoop
  | waitLoop
  deriving DecidableEq

/-- An atomic registry step in the finalization race.  Each constructor is
one source-level critical section executed under the sessions lock:
`fin` is a background loop's finalize block (remove, and emit
`terminal:exit` only if the remove actually removed an entry);
`cl` is the registry part of `close` (remove, never emit). -/
inductive Act
  | fin (who : Finalizer) (id : String)
  | cl (id : String)
  deriving DecidableEq

/-- Does this action target session `id`? -/
def Act.onId (id : String) : Act → Bool
  | .fin _ i => i == id
  | .cl i => i == id

/-- Is this action a background-loop finalize (as opposed to `close`)? -/
def Act.isFinalize : Act → Bool
  | .fin _ _ => true
  | .cl _ => false

/-- One atomic step over (registry, log of `terminal:exit` session ids).
`fin _ i` is lines 125-136 / 145-156: remove `i`; if the remove returned
an entry, append an exit event for `i`.  `cl i` is lines 222-225: remove
`i` and emit nothing. -/
def stepA (st : Registry × List String) (a : Act) : Registry × List String :=
  match a with
  | .fin _ i =>
    let r := mapRemove i st.1
    (r.2, if r.1.isSome then st.2 ++ [i] else st.2)
  | .cl i => ((mapRemove i st.1).2, st.2)

/-- Run an interleaving of atomic registry steps. -/
def runA (st : Registry × List String) (t : List Act) : Registry × List String :=
  t.foldl stepA st

/-- Number of `terminal:exit` events observed for session `id`. -/
def countId (id : String) (evs : List String) : Nat :=
  evs.count id

/-- Mirror of `TerminalError` (terminal/mod.rs lines 16-20). -/
inductive TerminalError
  | NotFound
  | Backend (msg : String)
  deriving DecidableEq

/-- `close(id)` (portable_pty_backend.rs lines 221-236): atomically remove
the entry; if nothing was removed return `NotFound`, otherwise signal the
killer asynchronously (external effect) and return `Ok`. -/
def closeModel (id : String) (reg : Registry) : Except TerminalError Unit × Registry :=
  let r := mapRemove id reg
  match r.1 with
  | none => (.error .NotFound, r.2)
  | some _ => (.ok (), r.2)

theorem stepA_not_onId (st : Registry × List String) (a : Act) (id : String)
    (h : a.onId id = false) :
    (stepA st a).1.lookup id = st.1.lookup id ∧
    countId id (stepA st a).2 = countId id st.2 := by
  match a with
  | .fin w i =>
    have hne : id ≠ i := by
      intro hc
      subst hc
      simp [Act.onId] at h
    constructor
    · simpa [stepA, mapRemove] using lookup_filter_ne st.1 id i hne
    · simp only [stepA, mapRemove]
      by_cases hs : (st.1.lookup i).isSome
      · have : (i == id) = false := beq_eq_false_iff_ne.mpr (fun hc => hne hc.symm)
        simp [hs, countId, List.count_append, List.count_cons, this]
      · simp [hs, countId]
  | .cl i =>
    have hne : id ≠ i := by
      intro hc
      subst hc
      simp [Act.onId] at h
    exact ⟨by simpa [stepA, mapRemove] using lookup_filter_ne st.1 id i hne, rfl⟩

theorem stepA_absent (st : Registry × List String) (a : Act) (id : String)
    (h : st.1.lookup id = none) :
    (stepA st a).1.lookup id = none ∧
    countId id (stepA st a).2 = countId id st.2 := by
  by_cases ho : a.onId id = false
  · have := stepA_not_onId st a id ho
    exact ⟨this.1.trans h, this.2⟩
  · have ho' : a.onId id = true := by
      cases hval : a.onId id
      · exact absurd hval ho
      · rfl
    match a with
    | .fin w i =>
      have hi : i = id := by simpa [Act.onId] using ho'
      subst hi
      constructor
      · simpa [stepA, mapRemove] using lookup_filter_self st.1 i
      · simp [stepA, mapRemove, h, countId]
    | .cl i =>
      have hi : i = id := by simpa [Act.onId] using ho'
      subst hi
      exact ⟨by simpa [stepA, mapRemove] using lookup_filter_self st.1 i, rfl⟩

theorem runA_absent (id : String) :
    ∀ (t : List Act) (st : Registry × List String), st.1.lookup id = none →
      (runA st t).1.lookup id = none ∧
      countId id (runA st t).2 = countId id st.2 := by
  intro t
  induction t with
  | nil => exact fun st h => ⟨h, rfl⟩
  | cons a t' ih =>
    intro st h
    have hs := stepA_absent st a id h
    have := ih (stepA st a) hs.1
    exact ⟨this.1, this.2.trans hs.2⟩

theorem runA_present_fins (id : String) :
    ∀ (t : List Act) (st : Registry × List String) (s : Session),
      st.1.lookup id = some s →
      (∀ a ∈ t, a.onId id = true → a.isFinalize = true) →
      (∃ a ∈ t, a.onId id = true) →
      countId id (runA st t).2 = countId id st.2 + 1 := by
  intro t
  induction t with
  | nil =>
    intro st s _ _ hex
    exact absurd hex (by simp)
  | cons a t' ih =>
    intro st s hpres hfin hex
    by_cases ho : a.onId id = true
    · have hf : a.isFinalize = true := hfin a (List.mem_cons_self a t') ho
      match a with
      | .fin w i =>
        have hi : i = id := by simpa [Act.onId] using ho
        subst hi
        have hstep1 : (stepA st (Act.fin w i)).1.lookup i = none := by
          simpa [stepA, mapRemove] using lookup_filter_self st.1 i
        have hstep2 : (stepA st (Act.fin w i)).2 = st.2 ++ [i] := by
          simp [stepA, mapRemove, hpres]
        have habs := runA_absent i t' (stepA st (Act.fin w i)) hstep1
        calc countId i (runA st (Act.fin w i :: t')).2
            = countId i (runA (stepA st (Act.fin w i)) t').2 := rfl
          _ = countId i (stepA st (Act.fin w i)).2 := habs.2
          _ = countId i st.2 + 1 := by
              simp [hstep2, countId, List.count_append]
      | .cl i => simp [Act.isFinalize] at hf
    · have ho' : a.onId id = false := by
        cases hval : a.onId id
        · rfl
        · exact absurd hval ho
      have hs := stepA_not_onId st a id ho'
      have hex' : ∃ b ∈ t', b.onId id = true := by
        obtain ⟨b, hb, hbid⟩ := hex
        rcases List.mem_cons.mp hb with hba | hbt
        · exact absurd (hba ▸ hbid) (by simpa using ho)
        · exact ⟨b, hbt, hbid⟩
      have hfin' : ∀ b ∈ t', b.onId id = true → b.isFinalize = true :=
        fun b hb => hfin b (List.mem_cons_of_mem a hb)
      have := ih (stepA st a) s (hs.1.trans hpres) hfin' hex'
      exact this.trans (by rw [hs.2])

/-- C1: a session whose child exits on its own (no `close` for its id in
the interleaving) gets exactly one `terminal:exit` event, whether the
output loop's EOF finalize or the exit-wait finalize runs first, and with
arbitrary steps for other sessions interleaved; each loop emits only when
its atomic remove-and-check actually removed the entry
(portable_pty_backend.rs lines 125-136 and 145-156). -/
theorem natural_exit_emits_exactly_one (reg : Registry) (id : String) (s : Session)
    (t : List Act) (hpres : reg.lookup id = some s)
    (horder : t.filter (Act.onId id) = [Act.fin .outputLoop id, Act.fin .waitLoop id] ∨
      t.filter (Act.onId id) = [Act.fin .waitLoop id, Act.fin .outputLoop id]) :
    countId id (runA (reg, []) t).2 = 1 := by
  have hfin : ∀ a ∈ t, a.onId id = true → a.isFinalize = true := by
    intro a ha hid
    have hmem : a ∈ t.filter (Act.onId id) := List.mem_filter.mpr ⟨ha, hid⟩
    rcases horder with h2 | h2 <;> rw [h2] at hmem <;> simp only [List.mem_cons,
      List.mem_singleton, List.not_mem_nil, or_false] at hmem <;>
      rcases hmem with hmem | hmem <;> subst hmem <;> rfl
  have hex : ∃ a ∈ t, a.onId id = true := by
    rcases horder with h2 | h2
    all_goals
      have : Act.fin .outputLoop id ∈ t.filter (Act.onId id) := by simp [h2]
      exact ⟨_, (List.mem_filter.mp this).1, (List.mem_filter.mp this).2⟩
  have := runA_present_fins id t (reg, []) s hpres hfin hex
  simpa [countId] using this

/-- C2: a session ended by a successful `close(id)` never produces a
`terminal:exit` event: `close` removes the registry entry first
(lines 222-225), so any later finalize step of either background loop —
indeed any later interleaving of registry steps — finds nothing to remove
and emits nothing (lines 125-136, 145-156). -/
theorem closed_session_emits_no_exit (reg : Registry) (id : String) (s : Session)
    (t : List Act) (hpres : reg.lookup id = some s) :
    (closeModel id reg).1 = .ok () ∧
    countId id (runA ((closeModel id reg).2, []) t).2 = 0 := by
  have hres : (closeModel id reg).1 = .ok () := by
    simp [closeModel, mapRemove, hpres]
  have hreg : (closeModel id reg).2.lookup id = none := by
    simp only [closeModel, mapRemove, hpres]
    exact lookup_filter_self reg id
  have := runA_absent id t ((closeModel id reg).2, []) hreg
  exact ⟨hres, by simpa [countId] using this.2⟩

/-- Rust `char::is_whitespace` — the Unicode White_Space property, which
`str::trim` uses.  Enumerates the White_Space code points. -/
def isRustWhitespace (c : Char) : Bool :=
  c.val == 0x9 || c.val == 0xA || c.val == 0xB || c.val == 0xC || c.val == 0xD ||
  c.val == 0x20 || c.val == 0x85 || c.val == 0xA0 || c.val == 0x1680 ||
  (decide (0x2000 ≤ c.val) && decide (c.val ≤ 0x200A)) ||
  c.val == 0x2028 || c.val == 0x2029 || c.val == 0x202F || c.val == 0x205F ||
  c.val == 0x3000

/-- `data.replace("\r", "").replace('\n', "")` (portable_pty_backend.rs
line 176): remove every carriage return, then every newline. -/
def stripCRLF (s : List Char) : List Char :=
  (s.filter (fun c => c != '\r')).filter (fun c => c != '\n')

/-- `str::trim` (line 177): drop Unicode whitespace from both ends. -/
def rustTrim (s : List Char) : List Char :=
  ((s.dropWhile isRustWhitespace).reverse.dropWhile isRustWhitespace).reverse

/-- Rust `String::len`: the UTF-8 byte count of the string. -/
def utf8Len (s : List Char) : Nat :=
  (s.map Char.utf8Size).sum

/-- Walk the string keeping characters while the byte budget lasts.
Budget 0 at a character boundary ends the string; a character that
straddles the remaining budget is Rust's `String::truncate` panic,
embedded as `none`. -/
def truncGo : List Char → Nat → Option (List Char)
  | _, 0 => some []
  | [], _ + 1 => some []
  | c :: cs, n + 1 =>
    if c.utf8Size ≤ n + 1 then (truncGo cs (n + 1 - c.utf8Size)).map (fun r => c :: r)
    else none

/-- `String::truncate(n)` (line 179): keep the first `n` bytes; `none`
models the panic when byte `n` is not a `char` boundary (for `n` at or
beyond the whole length this keeps the whole string). -/
def truncateBytes (n : Nat) (s : List Char) : Option (List Char) :=
  truncGo s n

/-- The provenance normalization block of `write` (lines 174-180):
strip carriage returns and newlines, trim, and if the byte length
exceeds 512 truncate to 512 bytes. -/
def normalizeCommanddock (data : List Char) : Option (List Char) :=
  let cmd := rustTrim (stripCRLF data)
  if utf8Len cmd > 512 then truncateBytes 512 cmd else some cmd

/-- Mirror of `WriteMeta` (session_manager.rs lines 21-27); the Rust
`Default` is `origin = None`. -/
structure WriteMeta where
  origin : Option String
  deriving DecidableEq

/-- `write(session_id, data, meta)` (portable_pty_backend.rs lines
162-193).  `writeRes` is the outcome of `write_all` on the PTY writer;
the trailing `flush` error is ignored by the source.  The outer `none`
is the normalization panic. -/
def writeModel (reg : Registry) (id : String) (data : List Char) (wm : WriteMeta)
    (now : Nat) (writeRes : Except String Unit) :
    Option (Except TerminalError Unit × Registry) :=
  match reg.lookup id with
  | none => some (.error .NotFound, reg)
  | some _ =>
    let updated : Option Registry :=
      match wm.origin == some "commanddock" with
      | true =>
        match normalizeCommanddock data with
        | none => none
        | some cmd =>
          match cmd.isEmpty with
          | true => some reg
          | false => some (mapUpdateMeta id
              (fun m => SessionMeta.mk m.environment_tag m.cols m.rows (some cmd) (some now)) reg)
      | false => some reg
    match updated with
    | none => none
    | some reg1 =>
      match writeRes with
      | .ok _ => some (.ok (), reg1)
      | .error e => some (.error (.Backend e), reg1)

/-- `resize(session_id, cols, rows)` (lines 195-219): look up the session
(`NotFound` when absent), update the in-memory meta size, then apply the
PTY-level resize whose outcome is `resizeRes`. -/
def resizeModel (reg : Registry) (id : String) (cols rows : Nat)
    (resizeRes : Except String Unit) : Except TerminalError Unit × Registry :=
  match reg.lookup id with
  | none => (.error .NotFound, reg)
  | some _ =>
    let reg1 := mapUpdateMeta id
      (fun m => SessionMeta.mk m.environment_tag cols rows
        m.last_commanddock_command m.last_commanddock_at) reg
    match resizeRes with
    | .ok _ => (.ok (), reg1)
    | .error e => (.error (.Backend e), reg1)

/-- Mirror of `portable_pty::PtySize` as used at lines 54-59 and 212-217
(pixel fields always 0). -/
structure PtySize where
  rows : Nat
  cols : Nat
  pixel_width : Nat
  pixel_height : Nat
  deriving DecidableEq

/-- Mirror of `TerminalKind` (session_manager.rs lines 5-9). -/
inductive TerminalKind
  | Local
  | Ssh
  deriving DecidableEq

/-- Mirror of `SpawnSpec` (session_manager.rs lines 11-19). -/
structure SpawnSpec where
  kind : TerminalKind
  environment_tag : String
  initial_cols : Option Nat
  initial_rows : Option Nat
  program : String
  args : List String
  deriving DecidableEq

/-- `spawn(app, spec)` (portable_pty_backend.rs lines 44-160).  The four
`Except` arguments are the outcomes of the fallible PTY-layer calls in
source order: `openpty`, `spawn_command`, `try_clone_reader`,
`take_writer`; each failure maps to `Backend` and returns before the
registry insert at line 96.  On success the fresh id is inserted with the
meta of lines 87-93 and the id and the allocated `PtySize` are returned. -/
def spawnModel (openptyRes spawnCmdRes cloneReaderRes takeWriterRes : Except String Unit)
    (newId : String) (spec : SpawnSpec) (reg : Registry) :
    Except TerminalError (String × PtySize) × Registry :=
  let rows := spec.initial_rows.getD 30
  let cols := spec.initial_cols.getD 120
  match openptyRes with
  | .error e => (.error (.Backend e), reg)
  | .ok _ =>
    match spawnCmdRes with
    | .error e => (.error (.Backend e), reg)
    | .ok _ =>
      match cloneReaderRes with
      | .error e => (.error (.Backend e), reg)
      | .ok _ =>
        match takeWriterRes with
        | .error e => (.error (.Backend e), reg)
        | .ok _ =>
          (.ok (newId, PtySize.mk rows cols 0 0),
            mapInsert newId
              (Session.mk (SessionMeta.mk spec.environment_tag cols rows none none)) reg)

/-- The argument-vector assembly of `open_ssh` (terminal/mod.rs lines
97-117), written as the source's sequence of pushes. -/
def buildSshArgs (user host : String) (port : Option Nat) (identity_file : Option String)
    (extra_args : List String) : List String :=
  let args : List String := []
  let args := args ++ ["-tt"]
  let args :=
    match port with
    | some p => args ++ ["-p", toString p]
    | none => args
  let args :=
    match identity_file with
    | some f => if (rustTrim f.toList).isEmpty then args else args ++ ["-i", f]
    | none => args
  let args := args ++ extra_args
  args ++ [user ++ "@" ++ host]

/-- `open_ssh` (terminal/mod.rs lines 84-130): resolve the ssh binary
(`sshRes` is the outcome of `ssh_program_checked`), build the argument
vector, and delegate to the generic spawn path. -/
def open_ssh (sshRes : Except String String) (user host : String) (port : Option Nat)
    (identity_file : Option String) (extra_args : List String)
    (environment_tag : Option String) (initial_cols initial_rows : Option Nat)
    (o1 o2 o3 o4 : Except String Unit) (newId : String) (reg : Registry) :
    Except TerminalError String × Registry :=
  match sshRes with
  | .error e => (.error (.Backend e), reg)
  | .ok program =>
    let out := spawnModel o1 o2 o3 o4 newId
      (SpawnSpec.mk .Ssh (environment_tag.getD "UNKNOWN") initial_cols initial_rows program
        (buildSshArgs user host port identity_file extra_args)) reg
    (out.1.map (fun p => p.1), out.2)

theorem utf8Len_cons (c : Char) (l : List Char) :
    utf8Len (c :: l) = c.utf8Size + utf8Len l := by
  simp [utf8Len]

theorem truncGo_byteLen_le : ∀ (l : List Char) (n : Nat) (r : List Char),
    truncGo l n = some r → utf8Len r ≤ n := by
  intro l
  induction l with
  | nil =>
    intro n r h
    cases n <;> simp only [truncGo, Option.some.injEq] at h <;> subst h <;> simp [utf8Len]
  | cons c cs ih =>
    intro n r h
    cases n with
    | zero =>
      simp only [truncGo, Option.some.injEq] at h
      subst h
      simp [utf8Len]
    | succ m =>
      simp only [truncGo] at h
      by_cases hc : c.utf8Size ≤ m + 1
      · rw [if_pos hc] at h
        cases hr : truncGo cs (m + 1 - c.utf8Size) with
        | none => rw [hr] at h; simp at h
        | some r' =>
          rw [hr] at h
          simp only [Option.map_some', Option.some.injEq] at h
          subst h
          have := ih (m + 1 - c.utf8Size) r' hr
          rw [utf8Len_cons]
          omega
      · rw [if_neg hc] at h
        simp at h

theorem truncGo_ascii : ∀ (l : List Char) (n : Nat), (∀ c ∈ l, c.utf8Size = 1) →
    truncGo l n = some (l.take n) := by
  intro l
  induction l with
  | nil => intro n _; cases n <;> simp [truncGo]
  | cons c cs ih =>
    intro n h1
    cases n with
    | zero => simp [truncGo]
    | succ m =>
      have hc : c.utf8Size = 1 := h1 c (List.mem_cons_self c cs)
      have hrest : ∀ d ∈ cs, d.utf8Size = 1 := fun d hd => h1 d (List.mem_cons_of_mem c hd)
      simp [truncGo, hc, ih m hrest, List.take_succ_cons]

theorem utf8Len_eq_length_of_ascii : ∀ (l : List Char), (∀ c ∈ l, c.utf8Size = 1) →
    utf8Len l = l.length := by
  intro l
  induction l with
  | nil => intro _; rfl
  | cons c cs ih =>
    intro h
    rw [utf8Len_cons, h c (List.mem_cons_self c cs),
      ih (fun d hd => h d (List.mem_cons_of_mem c hd))]
    simp [Nat.add_comm]

theorem mem_stripCRLF (c : Char) (s : List Char) (h : c ∈ stripCRLF s) : c ∈ s := by
  simp only [stripCRLF, List.mem_filter] at h
  exact h.1.1

theorem mem_rustTrim (c : Char) (s : List Char) (h : c ∈ rustTrim s) : c ∈ s := by
  simp only [rustTrim, List.mem_reverse] at h
  have h1 := (List.dropWhile_sublist (l := (s.dropWhile isRustWhitespace).reverse)
    (p := isRustWhitespace)).subset h
  rw [List.mem_reverse] at h1
  exact (List.dropWhile_sublist (l := s) (p := isRustWhitespace)).subset h1

theorem normalizeCommanddock_byteLen_le (data cmd : List Char)
    (h : normalizeCommanddock data = some cmd) : utf8Len cmd ≤ 512 := by
  simp only [normalizeCommanddock] at h
  by_cases hl : utf8Len (rustTrim (stripCRLF data)) > 512
  · rw [if_pos hl] at h
    exact truncGo_byteLen_le _ 512 cmd h
  · rw [if_neg hl] at h
    simp only [Option.some.injEq] at h
    subst h
    omega

theorem normalizeCommanddock_ascii (data : List Char)
    (h : ∀ c ∈ data, c.utf8Size = 1) :
    normalizeCommanddock data = some ((rustTrim (stripCRLF data)).take 512) := by
  have hsub : ∀ c ∈ rustTrim (stripCRLF data), c.utf8Size = 1 :=
    fun c hc => h c (mem_stripCRLF c data (mem_rustTrim c (stripCRLF data) hc))
  have hlen := utf8Len_eq_length_of_ascii _ hsub
  simp only [normalizeCommanddock]
  by_cases hl : utf8Len (rustTrim (stripCRLF data)) > 512
  · rw [if_pos hl]
    exact truncGo_ascii _ 512 hsub
  · rw [if_neg hl]
    have : (rustTrim (stripCRLF data)).length ≤ 512 := by omega
    rw [List.take_of_length_le this]

theorem lookup_mapInsert_self (m : Registry) (id : String) (s : Session) :
    (mapInsert id s m).lookup id = some s := by
  simp [mapInsert, List.lookup]

/-- C3 (amended): a write tagged with the structured-command origin
normalizes the data by stripping carriage returns and newlines, trimming
whitespace and truncating to 512 UTF-8 bytes — `String::len` counts
bytes, so for single-byte (ASCII) data this is exactly the 512-character
prefix — and, when the result is non-empty and the truncation byte falls
on a character boundary, records it as the session's provenance together
with the current time (portable_pty_backend.rs lines 173-186). -/
theorem provenance_tagged_records_normalized (reg : Registry) (id : String) (s : Session)
    (data cmd : List Char) (wm : WriteMeta) (now : Nat) (wres : Except String Unit)
    (hs : reg.lookup id = some s)
    (ho : wm.origin = some "commanddock")
    (hn : normalizeCommanddock data = some cmd)
    (hne : cmd.isEmpty = false) :
    ∃ res, writeModel reg id data wm now wres = some (res,
        mapUpdateMeta id (fun m => SessionMeta.mk m.environment_tag m.cols m.rows
          (some cmd) (some now)) reg) ∧
      (mapUpdateMeta id (fun m => SessionMeta.mk m.environment_tag m.cols m.rows
          (some cmd) (some now)) reg).lookup id =
        some (Session.mk (SessionMeta.mk s.meta.environment_tag s.meta.cols s.meta.rows
          (some cmd) (some now))) ∧
      utf8Len cmd ≤ 512 ∧
      ((∀ c ∈ data, c.utf8Size = 1) → cmd = (rustTrim (stripCRLF data)).take 512) := by
  have hbo : (wm.origin == some "commanddock") = true := by
    rw [ho]
    exact beq_self_eq_true _
  have hmain : ∀ res0,
      (match wres with
        | .ok _ => Except.ok ()
        | .error e => Except.error (TerminalError.Backend e)) = res0 →
      writeModel reg id data wm now wres = some (res0,
        mapUpdateMeta id (fun m => SessionMeta.mk m.environment_tag m.cols m.rows
          (some cmd) (some now)) reg) := by
    intro res0 hres0
    cases wres <;> simp only [writeModel, hs, hbo, hn, hne] <;> rw [← hres0]
  refine ⟨_, hmain _ rfl, lookup_mapUpdateMeta_self reg id s _ hs,
    normalizeCommanddock_byteLen_le data cmd hn, ?_⟩
  intro hascii
  have h2 := normalizeCommanddock_ascii data hascii
  rw [hn] at h2
  exact Option.some.inj h2

/-- C4: a write whose `meta.origin` is unset or differs from the
structured-command marker never touches the provenance bookkeeping: the
whole registry — in particular `last_commanddock_command` and
`last_commanddock_at` of the target session — is returned unchanged
(portable_pty_backend.rs lines 162-193; `TerminalManager::write` passes
the default meta with `origin = none`, terminal/mod.rs lines 136-138). -/
theorem untagged_write_preserves_provenance (reg : Registry) (id : String) (data : List Char)
    (wm : WriteMeta) (now : Nat) (wres : Except String Unit)
    (h : wm.origin ≠ some "commanddock") :
    (writeModel reg id data wm now wres).map (fun p => p.2) = some reg := by
  have hbo : (wm.origin == some "commanddock") = false := beq_eq_false_iff_ne.mpr h
  cases hl : reg.lookup id with
  | none => simp [writeModel, hl]
  | some s => cases wres <;> simp [writeModel, hl, hbo]

/-- C5: when any stage of `spawn` fails — PTY allocation
(`openpty`), spawning the command, obtaining the reader, or obtaining the
writer — the call returns a `Backend` error carrying the diagnostic and
the registry is returned untouched: the insert at line 96 is only reached
after all four stages succeed (portable_pty_backend.rs lines 44-99). -/
theorem failed_spawn_keeps_registry (o1 o2 o3 o4 : Except String Unit) (newId : String)
    (spec : SpawnSpec) (reg : Registry)
    (hfail : (∃ e, o1 = .error e) ∨ (∃ e, o2 = .error e) ∨
      (∃ e, o3 = .error e) ∨ (∃ e, o4 = .error e)) :
    (∃ msg, (spawnModel o1 o2 o3 o4 newId spec reg).1 = .error (.Backend msg)) ∧
    (spawnModel o1 o2 o3 o4 newId spec reg).2 = reg := by
  cases o1 with
  | error e => exact ⟨⟨e, rfl⟩, rfl⟩
  | ok u1 =>
    cases o2 with
    | error e => exact ⟨⟨e, rfl⟩, rfl⟩
    | ok u2 =>
      cases o3 with
      | error e => exact ⟨⟨e, rfl⟩, rfl⟩
      | ok u3 =>
        cases o4 with
        | error e => exact ⟨⟨e, rfl⟩, rfl⟩
        | ok u4 =>
          exfalso
          rcases hfail with ⟨e, he⟩ | ⟨e, he⟩ | ⟨e, he⟩ | ⟨e, he⟩ <;> cases he

/-- C6: `write`, `resize` and `close` on a session id absent from the
registry (never issued, already finalized, or already closed) each return
`NotFound` and leave the registry unchanged (portable_pty_backend.rs
lines 162-169, 195-202, 221-229). -/
theorem unknown_session_not_found (reg : Registry) (id : String) (data : List Char)
    (wm : WriteMeta) (now : Nat) (wres rres : Except String Unit) (cols rows : Nat)
    (habs : reg.lookup id = none) :
    writeModel reg id data wm now wres = some (.error .NotFound, reg) ∧
    resizeModel reg id cols rows rres = (.error .NotFound, reg) ∧
    closeModel id reg = (.error .NotFound, reg) := by
  refine ⟨by simp [writeModel, habs], by simp [resizeModel, habs], ?_⟩
  simp only [closeModel, mapRemove, habs]
  rw [filter_eq_self_of_lookup_none reg id habs]

/-- C7: the secure-shell argument vector is assembled in exactly the
order of terminal/mod.rs lines 97-117 — the force-TTY flag `-tt`, then
`-p` and the port when given, then `-i` and the identity file when given
and non-blank after trimming, then the caller's extra arguments in order,
then `user@host` last — and when the ssh binary cannot be resolved,
`open_ssh` returns a `Backend` error with the registry untouched, before
any spawn attempt (lines 84-130; arch/ssh.rs lines 34-51). -/
theorem ssh_args_order_and_resolve_failure (sshRes : Except String String)
    (user host : String) (port : Option Nat) (identity_file : Option String)
    (extra_args : List String) (etag : Option String) (icols irows : Option Nat)
    (o1 o2 o3 o4 : Except String Unit) (newId : String) (reg : Registry) :
    buildSshArgs user host port identity_file extra_args
      = ["-tt"]
        ++ (match port with | some p => ["-p", toString p] | none => [])
        ++ (match identity_file with
            | some f => if (rustTrim f.toList).isEmpty then [] else ["-i", f]
            | none => [])
        ++ extra_args ++ [user ++ "@" ++ host] ∧
    (∀ e, sshRes = .error e →
      open_ssh sshRes user host port identity_file extra_args etag icols irows
        o1 o2 o3 o4 newId reg = (.error (.Backend e), reg)) := by
  constructor
  · cases port with
    | none =>
      cases identity_file with
      | none => simp [buildSshArgs]
      | some f =>
        by_cases hf : rustTrim f.data = [] <;>
          simp [buildSshArgs, List.isEmpty_iff, hf]
    | some p =>
      cases identity_file with
      | none => simp [buildSshArgs]
      | some f =>
        by_cases hf : rustTrim f.data = [] <;>
          simp [buildSshArgs, List.isEmpty_iff, hf]
  · intro e he
    rw [he]
    rfl

/-- C9: when `initial_cols` (resp. `initial_rows`) is unspecified, the
PTY is allocated with 120 columns (resp. 30 rows) — each dimension
defaulting independently at lines 49-50 — and the freshly registered
session's in-memory meta records those same values (portable_pty_backend.rs
lines 49-59 and 87-93). -/
theorem spawn_default_size (newId : String) (spec : SpawnSpec) (reg : Registry) :
    (spec.initial_cols = none →
      (spawnModel (.ok ()) (.ok ()) (.ok ()) (.ok ()) newId spec reg).1
        = .ok (newId, PtySize.mk (spec.initial_rows.getD 30) 120 0 0) ∧
      ∃ s, (spawnModel (.ok ()) (.ok ()) (.ok ()) (.ok ()) newId spec reg).2.lookup newId
          = some s ∧ s.meta.cols = 120) ∧
    (spec.initial_rows = none →
      (spawnModel (.ok ()) (.ok ()) (.ok ()) (.ok ()) newId spec reg).1
        = .ok (newId, PtySize.mk 30 (spec.initial_cols.getD 120) 0 0) ∧
      ∃ s, (spawnModel (.ok ()) (.ok ()) (.ok ()) (.ok ()) newId spec reg).2.lookup newId
          = some s ∧ s.meta.rows = 30) := by
  constructor
  · intro hc
    constructor
    · simp [spawnModel, hc]
    · refine ⟨_, lookup_mapInsert_self reg newId _, ?_⟩
      simp [hc]
  · intro hr
    constructor
    · simp [spawnModel, hr]
    · refine ⟨_, lookup_mapInsert_self reg newId _, ?_⟩
      simp [hr]

/-- C10: after `resize(id, cols, rows)` on a registered session the
session stays registered and its in-memory meta size equals the requested
dimensions whatever the PTY-level outcome — the meta is updated at lines
204-208 before the PTY resize is attempted and is not rolled back — and
the call returns `Ok` exactly when the PTY resize succeeded, a `Backend`
error with its diagnostic otherwise (portable_pty_backend.rs lines
195-219). -/
theorem resize_records_size_even_on_backend_error (reg : Registry) (id : String)
    (s : Session) (cols rows : Nat) (rres : Except String Unit)
    (hs : reg.lookup id = some s) :
    (resizeModel reg id cols rows rres).2.lookup id
      = some (Session.mk (SessionMeta.mk s.meta.environment_tag cols rows
          s.meta.last_commanddock_command s.meta.last_commanddock_at)) ∧
    (rres = .ok () → (resizeModel reg id cols rows rres).1 = .ok ()) ∧
    (∀ e, rres = .error e → (resizeModel reg id cols rows rres).1 = .error (.Backend e)) := by
  refine ⟨?_, ?_, ?_⟩
  · have := lookup_mapUpdateMeta_self reg id s
      (fun m => SessionMeta.mk m.environment_tag cols rows
        m.last_commanddock_command m.last_commanddock_at) hs
    cases rres <;> simpa [resizeModel, hs] using this
  · intro hr
    rw [hr]
    simp [resizeModel, hs]
  · intro e hr
    rw [hr]
    simp [resizeModel, hs]

/-- A concrete registered session used by the concrete instantiations. -/
def sampleSession : Session := Session.mk (SessionMeta.mk "LOCAL" 120 30 none none)

/-- A concrete one-entry registry. -/
def sampleReg : Registry := [("a", sampleSession)]

/-- A concrete structured-command payload: 600 characters, all single
UTF-8 bytes, with an embedded CR/LF and trailing whitespace. -/
def data600 : List Char :=
  List.replicate 300 'a' ++ '\r' :: '\n' :: (List.replicate 296 'b' ++ [' ', ' '])

/-- The normalized form the code stores for `data600`. -/
def cmd600 : List Char := List.replicate 300 'a' ++ List.replicate 212 'b'

/-- A 600-character structured-command payload whose characters occupy
two UTF-8 bytes each, with an embedded CR/LF. -/
def ceData : List Char := List.replicate 300 'é' ++ '\r' :: '\n' :: List.replicate 298 'é'

/-- C1 witness: one registered session, output-loop finalize then
exit-wait finalize, exactly one exit event. -/
theorem natural_exit_emits_exactly_one_witness :
    sampleReg.lookup "a" = some sampleSession ∧
    countId "a" (runA (sampleReg, []) [Act.fin .outputLoop "a", Act.fin .waitLoop "a"]).2 = 1 :=
  ⟨by decide,
    natural_exit_emits_exactly_one sampleReg "a" sampleSession
      [Act.fin .outputLoop "a", Act.fin .waitLoop "a"] (by decide) (Or.inl (by decide))⟩

/-- C2 witness: close succeeds on the registered session and the two
later loop finalizations emit nothing. -/
theorem closed_session_emits_no_exit_witness :
    sampleReg.lookup "a" = some sampleSession ∧
    ((closeModel "a" sampleReg).1 = .ok () ∧
      countId "a" (runA ((closeModel "a" sampleReg).2, [])
        [Act.fin .outputLoop "a", Act.fin .waitLoop "a"]).2 = 0) :=
  ⟨by decide,
    closed_session_emits_no_exit sampleReg "a" sampleSession
      [Act.fin .outputLoop "a", Act.fin .waitLoop "a"] (by decide)⟩

/-- C3 witness: the 600-character single-byte payload is recorded as its
trimmed, newline-stripped 512-character prefix with the current tick. -/
theorem provenance_tagged_records_normalized_witness :
    sampleReg.lookup "a" = some sampleSession ∧
    (WriteMeta.mk (some "commanddock")).origin = some "commanddock" ∧
    normalizeCommanddock data600 = some cmd600 ∧
    cmd600.isEmpty = false ∧
    data600.length = 600 ∧
    (∃ res, writeModel sampleReg "a" data600 (WriteMeta.mk (some "commanddock")) 7 (.ok ())
        = some (res, mapUpdateMeta "a" (fun m => SessionMeta.mk m.environment_tag m.cols m.rows
            (some cmd600) (some 7)) sampleReg) ∧
      (mapUpdateMeta "a" (fun m => SessionMeta.mk m.environment_tag m.cols m.rows
            (some cmd600) (some 7)) sampleReg).lookup "a" =
        some (Session.mk (SessionMeta.mk sampleSession.meta.environment_tag
          sampleSession.meta.cols sampleSession.meta.rows (some cmd600) (some 7))) ∧
      utf8Len cmd600 ≤ 512 ∧
      ((∀ c ∈ data600, c.utf8Size = 1) → cmd600 = (rustTrim (stripCRLF data600)).take 512)) :=
  ⟨by decide, rfl, by decide, by decide, by decide,
    provenance_tagged_records_normalized sampleReg "a" sampleSession data600 cmd600
      (WriteMeta.mk (some "commanddock")) 7 (.ok ()) (by decide) rfl (by decide) (by decide)⟩

/-- C3 counterexample: for a tagged 600-character string with embedded
CR/LF whose characters are each two UTF-8 bytes, the code records the
512-byte prefix — 256 characters — not the 512-character prefix the
claim describes (598 characters survive stripping, so a 512-character
prefix exists and differs). -/
theorem provenance_truncation_chars_counterexample :
    ceData.length = 600 ∧
    writeModel sampleReg "a" ceData (WriteMeta.mk (some "commanddock")) 7 (.ok ())
      = some (.ok (), [("a", Session.mk (SessionMeta.mk "LOCAL" 120 30
          (some (List.replicate 256 'é')) (some 7)))]) ∧
    (rustTrim (stripCRLF ceData)).length = 598 ∧
    ((rustTrim (stripCRLF ceData)).take 512).length = 512 ∧
    (List.replicate 256 'é' : List Char) ≠ (rustTrim (stripCRLF ceData)).take 512 :=
  ⟨by decide, rfl, by decide, by decide, by decide⟩

/-- C4 witness: an untagged (default-meta) write of a command-looking
string leaves the registry — hence the provenance fields — unchanged. -/
theorem untagged_write_preserves_provenance_witness :
    (WriteMeta.mk none).origin ≠ some "commanddock" ∧
    (writeModel sampleReg "a" ("rm -rf /tmp\n".toList) (WriteMeta.mk none) 7 (.ok ())).map
      (fun p => p.2) = some sampleReg :=
  ⟨by decide,
    untagged_write_preserves_provenance sampleReg "a" ("rm -rf /tmp\n".toList)
      (WriteMeta.mk none) 7 (.ok ()) (by decide)⟩

/-- C5 witness: a PTY-allocation failure surfaces as `Backend` and the
registry keeps exactly its prior entries. -/
theorem failed_spawn_keeps_registry_witness :
    ((∃ e, (Except.error "openpty failed" : Except String Unit) = .error e) ∨
      (∃ e, (Except.ok () : Except String Unit) = .error e) ∨
      (∃ e, (Except.ok () : Except String Unit) = .error e) ∨
      (∃ e, (Except.ok () : Except String Unit) = .error e)) ∧
    ((∃ msg, (spawnModel (.error "openpty failed") (.ok ()) (.ok ()) (.ok ()) "id1"
        (SpawnSpec.mk .Local "LOCAL" none none "/bin/zsh" []) sampleReg).1
          = .error (.Backend msg)) ∧
      (spawnModel (.error "openpty failed") (.ok ()) (.ok ()) (.ok ()) "id1"
        (SpawnSpec.mk .Local "LOCAL" none none "/bin/zsh" []) sampleReg).2 = sampleReg) :=
  ⟨Or.inl ⟨"openpty failed", rfl⟩,
    failed_spawn_keeps_registry (.error "openpty failed") (.ok ()) (.ok ()) (.ok ()) "id1"
      (SpawnSpec.mk .Local "LOCAL" none none "/bin/zsh" []) sampleReg
      (Or.inl ⟨"openpty failed", rfl⟩)⟩

/-- C6 witness: `write`, `resize`, `close` against an empty registry all
report `NotFound` and leave it empty. -/
theorem unknown_session_not_found_witness :
    ([] : Registry).lookup "ghost" = none ∧
    (writeModel [] "ghost" ("ls".toList) (WriteMeta.mk none) 0 (.ok ())
        = some (.error .NotFound, []) ∧
      resizeModel [] "ghost" 80 24 (.ok ()) = (.error .NotFound, []) ∧
      closeModel "ghost" [] = (.error .NotFound, [])) :=
  ⟨rfl,
    unknown_session_not_found [] "ghost" ("ls".toList) (WriteMeta.mk none) 0 (.ok ())
      (.ok ()) 80 24 rfl⟩

/-- C7 witness: the assembled vector for a full remote request, and the
Backend error with untouched registry when ssh resolution fails. -/
theorem ssh_args_order_and_resolve_failure_witness :
    buildSshArgs "root" "db1" (some 2222) (some "/k.pem") ["-v", "-C"]
      = ["-tt", "-p", "2222", "-i", "/k.pem", "-v", "-C", "root@db1"] ∧
    open_ssh (.error "ssh binary not found") "root" "db1" (some 2222) (some "/k.pem")
      ["-v", "-C"] (some "PROD") none none (.ok ()) (.ok ()) (.ok ()) (.ok ()) "id1" sampleReg
      = (.error (.Backend "ssh binary not found"), sampleReg) :=
  ⟨((ssh_args_order_and_resolve_failure (.error "ssh binary not found") "root" "db1"
      (some 2222) (some "/k.pem") ["-v", "-C"] (some "PROD") none none
      (.ok ()) (.ok ()) (.ok ()) (.ok ()) "id1" sampleReg).1).trans (by decide),
    (ssh_args_order_and_resolve_failure (.error "ssh binary not found") "root" "db1"
      (some 2222) (some "/k.pem") ["-v", "-C"] (some "PROD") none none
      (.ok ()) (.ok ()) (.ok ()) (.ok ()) "id1" sampleReg).2 "ssh binary not found" rfl⟩

/-- A concrete local spawn specification with both dimensions unset. -/
def specDef : SpawnSpec := SpawnSpec.mk .Local "LOCAL" none none "/bin/zsh" []

/-- C9 witness: a spec with both dimensions unset allocates 120×30 and
the registered session's meta records 120 columns and 30 rows. -/
theorem spawn_default_size_witness :
    specDef.initial_cols = none ∧ specDef.initial_rows = none ∧
    ((spawnModel (.ok ()) (.ok ()) (.ok ()) (.ok ()) "id1" specDef []).1
        = .ok ("id1", PtySize.mk (specDef.initial_rows.getD 30) 120 0 0) ∧
      ∃ s, (spawnModel (.ok ()) (.ok ()) (.ok ()) (.ok ()) "id1" specDef []).2.lookup "id1"
          = some s ∧ s.meta.cols = 120) ∧
    ((spawnModel (.ok ()) (.ok ()) (.ok ()) (.ok ()) "id1" specDef []).1
        = .ok ("id1", PtySize.mk 30 (specDef.initial_cols.getD 120) 0 0) ∧
      ∃ s, (spawnModel (.ok ()) (.ok ()) (.ok ()) (.ok ()) "id1" specDef []).2.lookup "id1"
          = some s ∧ s.meta.rows = 30) :=
  ⟨rfl, rfl, (spawn_default_size "id1" specDef []).1 rfl,
    (spawn_default_size "id1" specDef []).2 rfl⟩

/-- C10 witness: a resize whose PTY-level call fails still records the
requested 80×24 in the session meta and keeps the session registered. -/
theorem resize_records_size_even_on_backend_error_witness :
    sampleReg.lookup "a" = some sampleSession ∧
    ((resizeModel sampleReg "a" 80 24 (.error "ioctl failed")).2.lookup "a"
        = some (Session.mk (SessionMeta.mk sampleSession.meta.environment_tag 80 24
            sampleSession.meta.last_commanddock_command
            sampleSession.meta.last_commanddock_at)) ∧
      ((.error "ioctl failed" : Except String Unit) = .ok () →
        (resizeModel sampleReg "a" 80 24 (.error "ioctl failed")).1 = .ok ()) ∧
      (∀ e, (.error "ioctl failed" : Except String Unit) = .error e →
        (resizeModel sampleReg "a" 80 24 (.error "ioctl failed")).1
          = .error (.Backend e))) :=
  ⟨by decide,
    resize_records_size_even_on_backend_error sampleReg "a" sampleSession 80 24
      (.error "ioctl failed") (by decide)⟩

end OpsPad

